import Mathlib

/-!
Verification of the MIND cognitive-memory core (cr_runtime.c, cr_state.c,
cr_query.c, cr_persist.c) against its specification.

The C code is shallowly embedded: 32-bit floats become real numbers
(exact-arithmetic idealization), C ints become Int, slot buffers become
lists, and the persistence file becomes a list of typed 32-bit words in
the exact field order the codec writes.  Operations that can fail return
Option (none corresponds to a -1 return in C).
-/

namespace MIND

/-- Plasticity floor, CR_EPSILON in cr_internal.h. -/
def CR_EPSILON : ℝ := 0.05

/-- Similarity threshold for reinforcement, CR_SIM_THRESHOLD. -/
def CR_SIM_THRESHOLD : ℝ := 0.85

/-- Plasticity decay rate on reinforcement, CR_DECAY_RATE. -/
def CR_DECAY_RATE : ℝ := 0.995

/-- Plasticity recovery rate on novelty, CR_RECOVERY_RATE. -/
def CR_RECOVERY_RATE : ℝ := 1.0005

/-- Persistence magic number, CR_MAGIC. -/
def CR_MAGIC : Int := 0x4D494E44

/-- Persistence format version, CR_PERSIST_VERSION. -/
def CR_PERSIST_VERSION : Int := 1

/-- cr_config_t from cr.h. -/
structure cr_config_t where
  embedding_dim : Int
  max_memory_slots : Int
  initial_plasticity : ℝ

/-- struct cr_runtime from cr_internal.h. -/
structure cr_runtime_t where
  dim : Int
  max_slots : Int
deriving DecidableEq

/-- cr_slot_t from cr_internal.h: one invariant vector plus its weight. -/
structure cr_slot_t where
  vector : List ℝ
  weight : ℝ

instance : Inhabited cr_slot_t := ⟨⟨[], 0⟩⟩

/-- struct cr_state from cr_internal.h. -/
structure cr_state_t where
  rt : cr_runtime_t
  slots : List cr_slot_t
  slot_count : Int
  plasticity : ℝ
  age : ℝ
  plasticity_prev : ℝ
  velocity : ℝ
  last_reinforcement_age : ℝ
  total_updates : Int
  total_reinforcements : Int

/-- cr_hint_t from cr.h: query result. -/
structure cr_hint_t where
  vector : Option (List ℝ)
  dim : Int
  confidence : ℝ

/-- The dot accumulator of the loop in cr_cosine_similarity. -/
def dotAcc (a b : List ℝ) (dim : ℕ) : ℝ :=
  ∑ i ∈ Finset.range dim, a.getD i 0 * b.getD i 0

/-- The squared-norm accumulator of the loop in cr_cosine_similarity. -/
def normAcc (a : List ℝ) (dim : ℕ) : ℝ :=
  ∑ i ∈ Finset.range dim, a.getD i 0 * a.getD i 0

/-- cr_cosine_similarity from cr_state.c: 0 when either norm is 0, else
dot over the product of the square-rooted norms. -/
noncomputable def cr_cosine_similarity (a b : List ℝ) (dim : ℕ) : ℝ :=
  if normAcc a dim = 0 ∨ normAcc b dim = 0 then 0
  else dotAcc a b dim / (Real.sqrt (normAcc a dim) * Real.sqrt (normAcc b dim))

/-- The best-match scan loop shared by cr_state_update and cr_state_query:
best starts NULL with best_sim 0.0, and slot i is selected only when its
similarity strictly exceeds the running best. -/
noncomputable def scanBest (e : List ℝ) (dim : ℕ) (slots : List cr_slot_t) (n : ℕ) :
    Option ℕ × ℝ :=
  (List.range n).foldl
    (fun acc i =>
      let sim := cr_cosine_similarity e (slots.getD i default).vector dim
      if acc.2 < sim then (some i, sim) else acc)
    (none, 0)

/-- cr_runtime_create from cr_runtime.c: rejects non-positive dim or
max_slots and keeps only dim and max_slots (initial_plasticity is not
stored). -/
def cr_runtime_create (cfg : cr_config_t) : Option cr_runtime_t :=
  if cfg.embedding_dim ≤ 0 ∨ cfg.max_memory_slots ≤ 0 then none
  else some { dim := cfg.embedding_dim, max_slots := cfg.max_memory_slots }

/-- cr_runtime_config from cr_runtime.c: initial_plasticity is reported as
the constant default 1.0. -/
def cr_runtime_config (rt : cr_runtime_t) : cr_config_t :=
  { embedding_dim := rt.dim, max_memory_slots := rt.max_slots, initial_plasticity := 1 }

/-- A freshly calloc-ed slot: zero vector of the configured dimension,
weight 0. -/
def zeroSlot (dim : ℕ) : cr_slot_t := { vector := List.replicate dim 0, weight := 0 }

/-- cr_state_create from cr_state.c (allocation failure is not modelled). -/
def cr_state_create (rt : cr_runtime_t) : cr_state_t :=
  { rt := rt
    slots := List.replicate rt.max_slots.toNat (zeroSlot rt.dim.toNat)
    slot_count := 0
    plasticity := 1
    age := 0
    plasticity_prev := 1
    velocity := 0
    last_reinforcement_age := 0
    total_updates := 0
    total_reinforcements := 0 }

/-- cr_state_reset from cr_state.c. -/
def cr_state_reset (st : cr_state_t) : cr_state_t :=
  { st with
    plasticity := 1
    plasticity_prev := 1
    velocity := 0
    age := 0
    last_reinforcement_age := 0
    slot_count := 0
    total_updates := 0
    total_reinforcements := 0
    slots := st.slots.map (fun _ => zeroSlot st.rt.dim.toNat) }

/-- cr_state_slot_count accessor. -/
def cr_state_slot_count (st : cr_state_t) : Int := st.slot_count

/-- The lerp loop of the reinforcement branch of cr_state_update. -/
def lerpVec (old e : List ℝ) (dim : ℕ) (p : ℝ) : List ℝ :=
  (List.range dim).map (fun i => old.getD i 0 * (1 - p) + e.getD i 0 * p)

/-- The memcpy of the creation branch of cr_state_update: the first dim
floats of the embedding. -/
def copyVec (e : List ℝ) (dim : ℕ) : List ℝ :=
  (List.range dim).map (fun i => e.getD i 0)

/-- The common tail of cr_state_update: plasticity multiply and clamp,
age and counter bookkeeping, and the velocity computation. -/
noncomputable def finishUpdate (st : cr_state_t) (slots2 : List cr_slot_t) (slot_count2 : Int)
    (lra2 : ℝ) (tr2 : Int) (reinforced : Bool) (pprev delta_t : ℝ) : cr_state_t :=
  let p1 := st.plasticity * (if reinforced then CR_DECAY_RATE else CR_RECOVERY_RATE)
  let p2 := if p1 < CR_EPSILON then CR_EPSILON else p1
  let p3 := if 1 < p2 then 1 else p2
  { st with
    slots := slots2
    slot_count := slot_count2
    last_reinforcement_age := lra2
    total_reinforcements := tr2
    plasticity_prev := pprev
    plasticity := p3
    age := st.age + delta_t
    total_updates := st.total_updates + 1
    velocity := (pprev - p3) / delta_t }

/-- cr_state_update from cr_state.c. -/
noncomputable def cr_state_update (st : cr_state_t) (embedding : List ℝ) (dim : Int)
    (delta_t : ℝ) : Option cr_state_t :=
  if dim ≠ st.rt.dim then none
  else if delta_t ≤ 0 then none
  else
    let pprev := st.plasticity
    let sb := scanBest embedding dim.toNat st.slots st.slot_count.toNat
    if sb.1.isSome ∧ CR_SIM_THRESHOLD < sb.2 then
      let b := sb.1.getD 0
      let old := st.slots.getD b default
      let slots2 := st.slots.set b
        { vector := lerpVec old.vector embedding dim.toNat st.plasticity
          weight := old.weight + 1 }
      some (finishUpdate st slots2 st.slot_count (st.age + delta_t)
        (st.total_reinforcements + 1) true pprev delta_t)
    else if st.slot_count < st.rt.max_slots then
      let slots2 := st.slots.set st.slot_count.toNat
        { vector := copyVec embedding dim.toNat, weight := 1 }
      some (finishUpdate st slots2 (st.slot_count + 1) st.last_reinforcement_age
        st.total_reinforcements false pprev delta_t)
    else
      some (finishUpdate st st.slots st.slot_count st.last_reinforcement_age
        st.total_reinforcements false pprev delta_t)

/-- cr_state_query from cr_query.c. -/
noncomputable def cr_state_query (st : cr_state_t) (q : List ℝ) (dim : Int) :
    Option cr_hint_t :=
  if dim ≠ st.rt.dim then none
  else
    let sb := scanBest q dim.toNat st.slots st.slot_count.toNat
    match sb.1 with
    | none => some { vector := none, dim := 0, confidence := 0 }
    | some b =>
      let best := st.slots.getD b default
      let stability := 1 - st.plasticity
      let weight_factor := best.weight / (best.weight + 1)
      some { vector := some best.vector, dim := dim, confidence := sb.2 * stability * weight_factor }

/-- A host loop feeding a sequence of (vector, delta_t) pairs to
cr_state_update at the configured dimension; a failed update leaves the
state unchanged. -/
noncomputable def runUpdates (st : cr_state_t) (seq : List (List ℝ × ℝ)) : cr_state_t :=
  seq.foldl (fun s p => (cr_state_update s p.1 s.rt.dim p.2).getD s) st

/-- One 32-bit word of a persistence file: an integer field or a float
field, in the order the codec writes them. -/
inductive FileWord where
  | i (v : Int)
  | f (v : ℝ)

/-- The fwrite of one slot vector in cr_state_save: dim floats from the
slot buffer. -/
def encVec (v : List ℝ) (dim : ℕ) : List FileWord :=
  (List.range dim).map (fun j => FileWord.f (v.getD j 0))

/-- The slot-writing loop of cr_state_save, slots i to i+n-1. -/
def encSlotsAux (slots : List cr_slot_t) (dim : ℕ) : ℕ → ℕ → List FileWord
  | _, 0 => []
  | i, n+1 =>
    encVec (slots.getD i default).vector dim ++
      (FileWord.f (slots.getD i default).weight :: encSlotsAux slots dim (i+1) n)

/-- cr_state_save from cr_persist.c: header, scalar state, then the first
slot_count slots (I/O failure is not modelled; the result is the file). -/
def cr_state_save (st : cr_state_t) : List FileWord :=
  FileWord.i CR_MAGIC :: FileWord.i CR_PERSIST_VERSION ::
  FileWord.i st.rt.dim :: FileWord.i st.rt.max_slots ::
  FileWord.i st.slot_count :: FileWord.f st.plasticity :: FileWord.f st.age ::
  FileWord.f st.plasticity_prev :: FileWord.f st.velocity ::
  FileWord.f st.last_reinforcement_age :: FileWord.i st.total_updates ::
  FileWord.i st.total_reinforcements ::
  encSlotsAux st.slots st.rt.dim.toNat 0 st.slot_count.toNat

/-- The fread of k consecutive floats in cr_state_load. -/
def readFloats : ℕ → List FileWord → Option (List ℝ × List FileWord)
  | 0, ws => some ([], ws)
  | k+1, FileWord.f x :: ws =>
    match readFloats k ws with
    | some (v, rest) => some (x :: v, rest)
    | none => none
  | _+1, _ => none

/-- The slot-reading loop of cr_state_load: n slots, written into the
slot array starting at index i (each slot: dim floats then a weight). -/
def readSlotsAux (dim : ℕ) : List FileWord → List cr_slot_t → ℕ → ℕ → Option (List cr_slot_t)
  | _, slots, _, 0 => some slots
  | ws, slots, i, n+1 =>
    match readFloats dim ws with
    | none => none
    | some (vec, ws1) =>
      match ws1 with
      | FileWord.f w :: ws2 => readSlotsAux dim ws2 (slots.set i { vector := vec, weight := w }) (i+1) n
      | _ => none

/-- cr_state_load from cr_persist.c, success path: header validation
(magic, version, dim, max_slots — slot_count is NOT validated), scalar
state applied, all weights cleared, then slot_count slots read.  Failure
is collapsed to none (the C code can leave partial state on mid-file
failure; no claim here depends on that). -/
def cr_state_load (st : cr_state_t) (file : List FileWord) : Option cr_state_t :=
  match file with
  | FileWord.i magic :: FileWord.i version :: FileWord.i dim :: FileWord.i max_slots ::
    FileWord.i slot_count :: FileWord.f p :: FileWord.f age :: FileWord.f pprev ::
    FileWord.f vel :: FileWord.f lra :: FileWord.i tu :: FileWord.i tr :: rest =>
    if magic ≠ CR_MAGIC then none
    else if version ≠ CR_PERSIST_VERSION then none
    else if dim ≠ st.rt.dim ∨ max_slots ≠ st.rt.max_slots then none
    else
      let cleared := st.slots.map (fun s => { s with weight := 0 })
      match readSlotsAux dim.toNat rest cleared 0 slot_count.toNat with
      | some slots2 =>
        some { st with
          slot_count := slot_count
          plasticity := p
          age := age
          plasticity_prev := pprev
          velocity := vel
          last_reinforcement_age := lra
          total_updates := tu
          total_reinforcements := tr
          slots := slots2 }
      | none => none
  | _ => none

/-- Well-formedness of a store: slot array sized to the configuration,
slot_count within bounds, plasticity within the mercy bounds, and every
occupied slot carrying a weight of at least 1 and a vector of the
configured dimension. -/
def crWF (st : cr_state_t) : Prop :=
  0 ≤ st.rt.max_slots ∧
  st.slots.length = st.rt.max_slots.toNat ∧
  0 ≤ st.slot_count ∧ st.slot_count ≤ st.rt.max_slots ∧
  CR_EPSILON ≤ st.plasticity ∧ st.plasticity ≤ 1 ∧
  ∀ i < st.slot_count.toNat,
    1 ≤ (st.slots.getD i default).weight ∧
    (st.slots.getD i default).vector.length = st.rt.dim.toNat

/-- States reachable from creation by any sequence of update and reset
operations (query does not mutate the store; failed updates leave it
unchanged). -/
inductive Reachable (rt : cr_runtime_t) : cr_state_t → Prop where
  | create : Reachable rt (cr_state_create rt)
  | update (s s2 : cr_state_t) (e : List ℝ) (dim : Int) (dt : ℝ) :
      Reachable rt s → cr_state_update s e dim dt = some s2 → Reachable rt s2
  | reset (s : cr_state_t) : Reachable rt s → Reachable rt (cr_state_reset s)

/-- A one-dimensional, one-slot runtime. -/
def rtDemo : cr_runtime_t := { dim := 1, max_slots := 1 }

/-- A fresh store on the demo runtime. -/
def stDemo0 : cr_state_t := cr_state_create rtDemo

/-- A configuration whose initial_plasticity is 0.5 rather than 1.0. -/
def cfgHalf : cr_config_t :=
  { embedding_dim := 4, max_memory_slots := 8, initial_plasticity := 0.5 }

/-- A persistence file with a valid header for a dim=1, max_slots=1
configuration whose slot_count field is -1 and which carries no slot
records. -/
def badFile : List FileWord :=
  [FileWord.i CR_MAGIC, FileWord.i CR_PERSIST_VERSION, FileWord.i 1, FileWord.i 1,
   FileWord.i (-1), FileWord.f 1, FileWord.f 0, FileWord.f 1, FileWord.f 0, FileWord.f 0,
   FileWord.i 0, FileWord.i 0]

/-- A full one-slot store of dimension 2 holding the first unit vector. -/
def stFull : cr_state_t :=
  { rt := { dim := 2, max_slots := 1 }
    slots := [{ vector := [1, 0], weight := 1 }]
    slot_count := 1
    plasticity := 1
    age := 0
    plasticity_prev := 1
    velocity := 0
    last_reinforcement_age := 0
    total_updates := 1
    total_reinforcements := 0 }

/-- The effect of the slot-reading loop on the slot array: entries i to
i+n-1 are replaced by the decoded slots of the source store. -/
def copySlots (src : List cr_slot_t) (dim : ℕ) : List cr_slot_t → ℕ → ℕ → List cr_slot_t
  | dst, _, 0 => dst
  | dst, i, n+1 =>
    copySlots src dim
      (dst.set i
        { vector := (List.range dim).map (fun j => (src.getD i default).vector.getD j 0)
          weight := (src.getD i default).weight })
      (i+1) n

/-! ### Lemmas about the scan loop -/

theorem scanBest_zero (e : List ℝ) (dim : ℕ) (slots : List cr_slot_t) :
    scanBest e dim slots 0 = (none, 0) := rfl

theorem scanBest_succ (e : List ℝ) (dim : ℕ) (slots : List cr_slot_t) (n : ℕ) :
    scanBest e dim slots (n + 1) =
      (if (scanBest e dim slots n).2 < cr_cosine_similarity e (slots.getD n default).vector dim
       then (some n, cr_cosine_similarity e (slots.getD n default).vector dim)
       else scanBest e dim slots n) := by
  unfold scanBest
  rw [List.range_succ, List.foldl_append]
  rfl

/-- The scan either selects nothing (best_sim stays 0.0) or selects an
occupied slot whose similarity is strictly positive. -/
theorem scanBest_spec (e : List ℝ) (dim : ℕ) (slots : List cr_slot_t) (n : ℕ) :
    scanBest e dim slots n = (none, 0) ∨
    ∃ b < n, scanBest e dim slots n =
        (some b, cr_cosine_similarity e (slots.getD b default).vector dim) ∧
      0 < cr_cosine_similarity e (slots.getD b default).vector dim := by
  induction n with
  | zero => exact Or.inl rfl
  | succ n ih =>
    rw [scanBest_succ]
    rcases ih with h | ⟨b, hb, heq, hpos⟩
    · rw [h]
      by_cases hlt : (0:ℝ) < cr_cosine_similarity e (slots.getD n default).vector dim
      · exact Or.inr ⟨n, Nat.lt_succ_self n, by rw [if_pos hlt], hlt⟩
      · rw [if_neg hlt]
        exact Or.inl rfl
    · rw [heq]
      by_cases hlt : cr_cosine_similarity e (slots.getD b default).vector dim <
          cr_cosine_similarity e (slots.getD n default).vector dim
      · exact Or.inr ⟨n, Nat.lt_succ_self n, by rw [if_pos hlt], lt_trans hpos hlt⟩
      · rw [if_neg hlt]
        exact Or.inr ⟨b, Nat.lt_succ_of_lt hb, rfl, hpos⟩

theorem scanBest_snd_nonneg (e : List ℝ) (dim : ℕ) (slots : List cr_slot_t) (n : ℕ) :
    0 ≤ (scanBest e dim slots n).2 := by
  rcases scanBest_spec e dim slots n with h | ⟨b, _, heq, hpos⟩
  · rw [h]
  · rw [heq]
    exact le_of_lt hpos

theorem scanBest_some (e : List ℝ) (dim : ℕ) (slots : List cr_slot_t) (n : ℕ) (b : ℕ)
    (h : (scanBest e dim slots n).1 = some b) :
    b < n ∧
    (scanBest e dim slots n).2 = cr_cosine_similarity e (slots.getD b default).vector dim ∧
    0 < (scanBest e dim slots n).2 := by
  rcases scanBest_spec e dim slots n with h0 | ⟨c, hc, heq, hpos⟩
  · rw [h0] at h
    exact absurd h (by simp)
  · rw [heq] at h ⊢
    simp only [Option.some.injEq] at h
    subst h
    exact ⟨hc, rfl, hpos⟩

/-- When no scanned slot has a strictly positive similarity, the scan
selects nothing. -/
theorem scanBest_none (e : List ℝ) (dim : ℕ) (slots : List cr_slot_t) (n : ℕ)
    (h : ∀ i < n, cr_cosine_similarity e (slots.getD i default).vector dim ≤ 0) :
    scanBest e dim slots n = (none, 0) := by
  induction n with
  | zero => rfl
  | succ n ih =>
    rw [scanBest_succ, ih (fun i hi => h i (Nat.lt_succ_of_lt hi))]
    rw [if_neg (not_lt.mpr (h n (Nat.lt_succ_self n)))]

/-- The scan only looks at the first n slots, so it only depends on them. -/
theorem scanBest_congr (e : List ℝ) (dim : ℕ) (slots1 slots2 : List cr_slot_t) (n : ℕ)
    (h : ∀ i < n, slots1.getD i default = slots2.getD i default) :
    scanBest e dim slots1 n = scanBest e dim slots2 n := by
  induction n with
  | zero => rfl
  | succ n ih =>
    rw [scanBest_succ, scanBest_succ, ih (fun i hi => h i (Nat.lt_succ_of_lt hi)),
      h n (Nat.lt_succ_self n)]

/-! ### Lemmas about cosine similarity -/

theorem normAcc_nonneg (a : List ℝ) (dim : ℕ) : 0 ≤ normAcc a dim :=
  Finset.sum_nonneg fun _ _ => mul_self_nonneg _

/-- Cauchy-Schwarz: the cosine similarity never exceeds 1. -/
theorem cr_cosine_similarity_le_one (a b : List ℝ) (dim : ℕ) :
    cr_cosine_similarity a b dim ≤ 1 := by
  unfold cr_cosine_similarity
  split_ifs with h
  · norm_num
  · push_neg at h
    have ha : 0 < normAcc a dim := lt_of_le_of_ne (normAcc_nonneg a dim) (Ne.symm h.1)
    have hb : 0 < normAcc b dim := lt_of_le_of_ne (normAcc_nonneg b dim) (Ne.symm h.2)
    have hden : 0 < Real.sqrt (normAcc a dim) * Real.sqrt (normAcc b dim) :=
      mul_pos (Real.sqrt_pos.mpr ha) (Real.sqrt_pos.mpr hb)
    rw [div_le_one hden]
    have := Real.sum_mul_le_sqrt_mul_sqrt (Finset.range dim)
      (fun i => a.getD i 0) (fun i => b.getD i 0)
    calc dotAcc a b dim
        ≤ Real.sqrt (∑ i ∈ Finset.range dim, a.getD i 0 ^ 2) *
            Real.sqrt (∑ i ∈ Finset.range dim, b.getD i 0 ^ 2) := this
      _ = Real.sqrt (normAcc a dim) * Real.sqrt (normAcc b dim) := by
          unfold normAcc
          simp_rw [pow_two]

/-- The cosine similarity against a zero-norm vector is 0; in particular
the all-zero embedding has similarity 0 with every slot. -/
theorem cr_cosine_similarity_zero_left (a b : List ℝ) (dim : ℕ)
    (h : normAcc a dim = 0) : cr_cosine_similarity a b dim = 0 := by
  unfold cr_cosine_similarity
  rw [if_pos (Or.inl h)]

theorem normAcc_replicate_zero (dim k : ℕ) : normAcc (List.replicate k (0:ℝ)) dim = 0 := by
  unfold normAcc
  refine Finset.sum_eq_zero fun i _ => ?_
  have : (List.replicate k (0:ℝ)).getD i 0 = 0 := by
    rcases lt_or_le i k with h | h
    · simp [List.getD_eq_getElem?_getD, List.getElem?_replicate, h]
    · simp [List.getD_eq_getElem?_getD, List.getElem?_replicate, Nat.not_lt.mpr h]
  rw [this, mul_zero]

/-! ### Lemmas about the update tail -/

theorem finishUpdate_plasticity (st : cr_state_t) (slots2 : List cr_slot_t)
    (slot_count2 : Int) (lra2 : ℝ) (tr2 : Int) (reinforced : Bool) (pprev delta_t : ℝ) :
    (finishUpdate st slots2 slot_count2 lra2 tr2 reinforced pprev delta_t).plasticity =
      (let p1 := st.plasticity * (if reinforced then CR_DECAY_RATE else CR_RECOVERY_RATE)
       let p2 := if p1 < CR_EPSILON then CR_EPSILON else p1
       if 1 < p2 then 1 else p2) := rfl

/-- The multiply-then-clamp step always lands in the mercy bounds,
whatever the prior plasticity was. -/
theorem finishUpdate_plasticity_bounds (st : cr_state_t) (slots2 : List cr_slot_t)
    (slot_count2 : Int) (lra2 : ℝ) (tr2 : Int) (reinforced : Bool) (pprev delta_t : ℝ) :
    CR_EPSILON ≤ (finishUpdate st slots2 slot_count2 lra2 tr2 reinforced pprev delta_t).plasticity ∧
    (finishUpdate st slots2 slot_count2 lra2 tr2 reinforced pprev delta_t).plasticity ≤ 1 := by
  rw [finishUpdate_plasticity]
  unfold CR_EPSILON CR_DECAY_RATE CR_RECOVERY_RATE
  dsimp only
  constructor <;> split_ifs <;> simp only [not_lt] at * <;> linarith

/-- Success of cr_state_update implies the argument checks passed and the
result is the bookkeeping tail applied to one of the three branches:
reinforce, create, or silently-discard. -/
theorem update_success_shape {st : cr_state_t} {e : List ℝ} {dim : Int} {dt : ℝ}
    {s2 : cr_state_t} (h : cr_state_update st e dim dt = some s2) :
    dim = st.rt.dim ∧ 0 < dt ∧
    ((∃ b, (scanBest e dim.toNat st.slots st.slot_count.toNat).1 = some b ∧
        CR_SIM_THRESHOLD < (scanBest e dim.toNat st.slots st.slot_count.toNat).2 ∧
        s2 = finishUpdate st
          (st.slots.set b
            { vector := lerpVec (st.slots.getD b default).vector e dim.toNat st.plasticity
              weight := (st.slots.getD b default).weight + 1 })
          st.slot_count (st.age + dt) (st.total_reinforcements + 1) true st.plasticity dt) ∨
      (¬((scanBest e dim.toNat st.slots st.slot_count.toNat).1.isSome = true ∧
          CR_SIM_THRESHOLD < (scanBest e dim.toNat st.slots st.slot_count.toNat).2) ∧
        st.slot_count < st.rt.max_slots ∧
        s2 = finishUpdate st
          (st.slots.set st.slot_count.toNat { vector := copyVec e dim.toNat, weight := 1 })
          (st.slot_count + 1) st.last_reinforcement_age st.total_reinforcements
          false st.plasticity dt) ∨
      (¬((scanBest e dim.toNat st.slots st.slot_count.toNat).1.isSome = true ∧
          CR_SIM_THRESHOLD < (scanBest e dim.toNat st.slots st.slot_count.toNat).2) ∧
        ¬(st.slot_count < st.rt.max_slots) ∧
        s2 = finishUpdate st st.slots st.slot_count st.last_reinforcement_age
          st.total_reinforcements false st.plasticity dt)) := by
  unfold cr_state_update at h
  by_cases h1 : dim ≠ st.rt.dim
  · rw [if_pos h1] at h
    exact absurd h (by simp)
  · rw [if_neg h1] at h
    push_neg at h1
    by_cases h2 : dt ≤ 0
    · rw [if_pos h2] at h
      exact absurd h (by simp)
    · rw [if_neg h2] at h
      push_neg at h2
      refine ⟨h1, h2, ?_⟩
      dsimp only at h
      by_cases h3 : (scanBest e dim.toNat st.slots st.slot_count.toNat).1.isSome = true ∧
          CR_SIM_THRESHOLD < (scanBest e dim.toNat st.slots st.slot_count.toNat).2
      · rw [if_pos h3] at h
        simp only [Option.some.injEq] at h
        obtain ⟨b, hb⟩ := Option.isSome_iff_exists.mp h3.1
        refine Or.inl ⟨b, hb, h3.2, ?_⟩
        rw [← h, hb]
        rfl
      · rw [if_neg h3] at h
        by_cases h4 : st.slot_count < st.rt.max_slots
        · rw [if_pos h4] at h
          simp only [Option.some.injEq] at h
          exact Or.inr (Or.inl ⟨h3, h4, h.symm⟩)
        · rw [if_neg h4] at h
          simp only [Option.some.injEq] at h
          exact Or.inr (Or.inr ⟨h3, h4, h.symm⟩)

/-! ### Well-formedness preservation -/

theorem getD_set_self {α : Type} [Inhabited α] (l : List α) (i : ℕ) (a : α)
    (h : i < l.length) : (l.set i a).getD i default = a := by
  simp [List.getD_eq_getElem?_getD, List.getElem?_set_self h]

theorem getD_set_ne {α : Type} [Inhabited α] (l : List α) (i j : ℕ) (a : α)
    (h : i ≠ j) : (l.set i a).getD j default = l.getD j default := by
  simp [List.getD_eq_getElem?_getD, List.getElem?_set_ne h]

theorem lerpVec_length (old e : List ℝ) (dim : ℕ) (p : ℝ) :
    (lerpVec old e dim p).length = dim := by simp [lerpVec]

theorem copyVec_length (e : List ℝ) (dim : ℕ) : (copyVec e dim).length = dim := by
  simp [copyVec]

theorem finishUpdate_rt (st : cr_state_t) (slots2 : List cr_slot_t) (slot_count2 : Int)
    (lra2 : ℝ) (tr2 : Int) (reinforced : Bool) (pprev delta_t : ℝ) :
    (finishUpdate st slots2 slot_count2 lra2 tr2 reinforced pprev delta_t).rt = st.rt := rfl

theorem finishUpdate_slots (st : cr_state_t) (slots2 : List cr_slot_t) (slot_count2 : Int)
    (lra2 : ℝ) (tr2 : Int) (reinforced : Bool) (pprev delta_t : ℝ) :
    (finishUpdate st slots2 slot_count2 lra2 tr2 reinforced pprev delta_t).slots = slots2 := rfl

theorem finishUpdate_slot_count (st : cr_state_t) (slots2 : List cr_slot_t) (slot_count2 : Int)
    (lra2 : ℝ) (tr2 : Int) (reinforced : Bool) (pprev delta_t : ℝ) :
    (finishUpdate st slots2 slot_count2 lra2 tr2 reinforced pprev delta_t).slot_count =
      slot_count2 := rfl

theorem finishUpdate_age (st : cr_state_t) (slots2 : List cr_slot_t) (slot_count2 : Int)
    (lra2 : ℝ) (tr2 : Int) (reinforced : Bool) (pprev delta_t : ℝ) :
    (finishUpdate st slots2 slot_count2 lra2 tr2 reinforced pprev delta_t).age =
      st.age + delta_t := rfl

theorem finishUpdate_total_updates (st : cr_state_t) (slots2 : List cr_slot_t)
    (slot_count2 : Int) (lra2 : ℝ) (tr2 : Int) (reinforced : Bool) (pprev delta_t : ℝ) :
    (finishUpdate st slots2 slot_count2 lra2 tr2 reinforced pprev delta_t).total_updates =
      st.total_updates + 1 := rfl

theorem finishUpdate_total_reinforcements (st : cr_state_t) (slots2 : List cr_slot_t)
    (slot_count2 : Int) (lra2 : ℝ) (tr2 : Int) (reinforced : Bool) (pprev delta_t : ℝ) :
    (finishUpdate st slots2 slot_count2 lra2 tr2 reinforced pprev delta_t).total_reinforcements =
      tr2 := rfl

theorem crWF_create (rt : cr_runtime_t) (h : 0 ≤ rt.max_slots) :
    crWF (cr_state_create rt) := by
  unfold crWF cr_state_create CR_EPSILON
  refine ⟨h, by simp, by norm_num, h, by norm_num, by norm_num, ?_⟩
  intro i hi
  simp at hi

theorem crWF_reset (st : cr_state_t) (h : crWF st) : crWF (cr_state_reset st) := by
  obtain ⟨hms, hlen, -, -, -, -, -⟩ := h
  unfold crWF cr_state_reset CR_EPSILON
  refine ⟨hms, by simpa using hlen, by norm_num, hms, by norm_num, by norm_num, ?_⟩
  intro i hi
  simp at hi

theorem crWF_update {st : cr_state_t} {e : List ℝ} {dim : Int} {dt : ℝ} {s2 : cr_state_t}
    (hwf : crWF st) (h : cr_state_update st e dim dt = some s2) : crWF s2 := by
  obtain ⟨hms, hlen, hsc0, hscm, hpl, hpu, hocc⟩ := hwf
  obtain ⟨hdim, hdt, hcase⟩ := update_success_shape h
  have hsclen : st.slot_count.toNat ≤ st.slots.length := by rw [hlen]; omega
  rcases hcase with ⟨b, hb, hth, hs2⟩ | ⟨hnot, hlt, hs2⟩ | ⟨hnot, hge, hs2⟩
  · obtain ⟨hbn, hbsim, hbpos⟩ := scanBest_some _ _ _ _ _ hb
    have hblen : b < st.slots.length := lt_of_lt_of_le hbn hsclen
    subst hs2
    refine ⟨?_, ?_, ?_, ?_, ?_, ?_, ?_⟩
    · rw [finishUpdate_rt]; exact hms
    · rw [finishUpdate_slots, finishUpdate_rt, List.length_set, hlen]
    · rw [finishUpdate_slot_count]; exact hsc0
    · rw [finishUpdate_slot_count, finishUpdate_rt]; exact hscm
    · exact (finishUpdate_plasticity_bounds _ _ _ _ _ _ _ _).1
    · exact (finishUpdate_plasticity_bounds _ _ _ _ _ _ _ _).2
    · intro i hi
      rw [finishUpdate_slot_count] at hi
      rw [finishUpdate_slots, finishUpdate_rt]
      by_cases hib : i = b
      · subst hib
        rw [getD_set_self _ _ _ hblen]
        refine ⟨?_, ?_⟩
        · have := (hocc i hi).1
          dsimp only
          linarith
        · dsimp only
          rw [lerpVec_length, hdim]
      · rw [getD_set_ne _ _ _ _ (Ne.symm hib)]
        exact hocc i hi
  · have hscmlen : st.slot_count.toNat < st.slots.length := by rw [hlen]; omega
    subst hs2
    refine ⟨?_, ?_, ?_, ?_, ?_, ?_, ?_⟩
    · rw [finishUpdate_rt]; exact hms
    · rw [finishUpdate_slots, finishUpdate_rt, List.length_set, hlen]
    · rw [finishUpdate_slot_count]; omega
    · rw [finishUpdate_slot_count, finishUpdate_rt]; omega
    · exact (finishUpdate_plasticity_bounds _ _ _ _ _ _ _ _).1
    · exact (finishUpdate_plasticity_bounds _ _ _ _ _ _ _ _).2
    · intro i hi
      rw [finishUpdate_slot_count] at hi
      rw [finishUpdate_slots, finishUpdate_rt]
      have hi2 : i < st.slot_count.toNat + 1 := by omega
      by_cases hib : i = st.slot_count.toNat
      · subst hib
        rw [getD_set_self _ _ _ hscmlen]
        refine ⟨by norm_num, ?_⟩
        dsimp only
        rw [copyVec_length, hdim]
      · rw [getD_set_ne _ _ _ _ (Ne.symm hib)]
        exact hocc i (by omega)
  · subst hs2
    refine ⟨?_, ?_, ?_, ?_, ?_, ?_, ?_⟩
    · rw [finishUpdate_rt]; exact hms
    · rw [finishUpdate_slots, finishUpdate_rt]; exact hlen
    · rw [finishUpdate_slot_count]; exact hsc0
    · rw [finishUpdate_slot_count, finishUpdate_rt]; exact hscm
    · exact (finishUpdate_plasticity_bounds _ _ _ _ _ _ _ _).1
    · exact (finishUpdate_plasticity_bounds _ _ _ _ _ _ _ _).2
    · intro i hi
      rw [finishUpdate_slot_count] at hi
      rw [finishUpdate_slots, finishUpdate_rt]
      exact hocc i hi

/-- Every reachable state is well-formed. -/
theorem reachable_wf {rt : cr_runtime_t} {s : cr_state_t} (h0 : 0 ≤ rt.max_slots)
    (h : Reachable rt s) : crWF s := by
  induction h with
  | create => exact crWF_create rt h0
  | update s s2 e dim dt _ hupd ih => exact crWF_update ih hupd
  | reset s _ ih => exact crWF_reset s ih

/-- A runtime returned by cr_runtime_create has positive dim and
max_slots. -/
theorem runtime_create_pos {cfg : cr_config_t} {rt : cr_runtime_t}
    (h : cr_runtime_create cfg = some rt) : 0 < rt.dim ∧ 0 < rt.max_slots := by
  unfold cr_runtime_create at h
  by_cases h1 : cfg.embedding_dim ≤ 0 ∨ cfg.max_memory_slots ≤ 0
  · rw [if_pos h1] at h
    exact absurd h (by simp)
  · rw [if_neg h1] at h
    push_neg at h1
    obtain ⟨ha, hb⟩ := h1
    injection h with h2
    subst h2
    exact ⟨ha, hb⟩

/-! ### Demonstration states for concrete evaluation -/

/-- An update on an empty store with free capacity always takes the
creation branch. -/
theorem update_empty (st : cr_state_t) (e : List ℝ) (dim : Int) (dt : ℝ)
    (h1 : dim = st.rt.dim) (h2 : 0 < dt) (h3 : st.slot_count = 0)
    (h4 : 0 < st.rt.max_slots) :
    cr_state_update st e dim dt =
      some (finishUpdate st
        (st.slots.set st.slot_count.toNat { vector := copyVec e dim.toNat, weight := 1 })
        (st.slot_count + 1) st.last_reinforcement_age st.total_reinforcements
        false st.plasticity dt) := by
  unfold cr_state_update
  rw [if_neg (by simp [h1]), if_neg (not_le.mpr h2)]
  dsimp only
  have hscan : scanBest e dim.toNat st.slots st.slot_count.toNat = (none, 0) := by
    rw [h3]
    rfl
  rw [hscan, if_neg (by simp), if_pos (by rw [h3]; exact h4)]

/-! ### Claim C1 -/

/-- Claim C1: for every reachable Memory Store state (any sequence of
create, update, query, reset operations on a store bound to a created
configuration), the plasticity satisfies 0.05 ≤ plasticity ≤ 1.0; in
particular every successful update leaves plasticity within these
bounds. -/
theorem crC1_plasticity_bounds (cfg : cr_config_t) (rt : cr_runtime_t) (s : cr_state_t)
    (hrt : cr_runtime_create cfg = some rt) (h : Reachable rt s) :
    0.05 ≤ s.plasticity ∧ s.plasticity ≤ 1 := by
  have hms : 0 ≤ rt.max_slots := le_of_lt (runtime_create_pos hrt).2
  obtain ⟨-, -, -, -, hl, hu, -⟩ := reachable_wf hms h
  exact ⟨by simpa [CR_EPSILON] using hl, hu⟩

theorem crC1_plasticity_bounds_witness :
    0.05 ≤ stDemo0.plasticity ∧ stDemo0.plasticity ≤ 1 :=
  crC1_plasticity_bounds { embedding_dim := 1, max_memory_slots := 1, initial_plasticity := 1 }
    rtDemo stDemo0 rfl Reachable.create

/-! ### Claim C3 -/

/-- Claim C3: two freshly created Memory Stores with identical
configurations, fed the identical ordered sequence of (vector, delta_t)
update pairs, afterwards are in identical states and return identical
confidence for the same query vector (the embedded semantics is a pure
function of the configuration and the input sequence — there is no
hidden source of nondeterminism in the code). -/
theorem crC3_determinism (rt : cr_runtime_t) (seq : List (List ℝ × ℝ)) (q : List ℝ)
    (dim : Int) :
    runUpdates (cr_state_create rt) seq = runUpdates (cr_state_create rt) seq ∧
    cr_state_query (runUpdates (cr_state_create rt) seq) q dim =
      cr_state_query (runUpdates (cr_state_create rt) seq) q dim :=
  ⟨rfl, rfl⟩

/-! ### Claim C5 (corrected) -/

/-- Claim C5 counterexample: creating a store from a configuration with
initial_plasticity = 0.5 yields plasticity 1.0, not the configured 0.5 —
cr_runtime_create never stores initial_plasticity and cr_state_create
hardcodes 1.0. -/
theorem crC5_counterexample :
    Option.map (fun rt => (cr_state_create rt).plasticity) (cr_runtime_create cfgHalf) =
      some 1 ∧
    cfgHalf.initial_plasticity ≠ 1 := by
  refine ⟨rfl, ?_⟩
  unfold cfgHalf
  norm_num

/-- Claim C5 (amended): for every configuration created via
create(dim>0, max_slots>0, initial_plasticity), creation succeeds and a
Memory Store bound to it is initialized with plasticity = 1.0 (the
configured initial_plasticity is ignored), age = 0, both counters = 0,
and no occupied slots. -/
theorem crC5_create_init (cfg : cr_config_t) (h1 : 0 < cfg.embedding_dim)
    (h2 : 0 < cfg.max_memory_slots) :
    ∃ rt, cr_runtime_create cfg = some rt ∧
      (cr_state_create rt).plasticity = 1 ∧
      (cr_state_create rt).age = 0 ∧
      (cr_state_create rt).total_updates = 0 ∧
      (cr_state_create rt).total_reinforcements = 0 ∧
      (cr_state_create rt).slot_count = 0 := by
  refine ⟨{ dim := cfg.embedding_dim, max_slots := cfg.max_memory_slots },
    ?_, rfl, rfl, rfl, rfl, rfl⟩
  unfold cr_runtime_create
  rw [if_neg]
  simp only [not_or, not_le]
  exact ⟨h1, h2⟩

theorem crC5_create_init_witness :
    (cr_state_create rtDemo).plasticity = 1 ∧ (cr_state_create rtDemo).slot_count = 0 := by
  obtain ⟨rt, hrt, hp, -, -, -, hsc⟩ :=
    crC5_create_init { embedding_dim := 1, max_memory_slots := 1, initial_plasticity := 1 }
      (by decide) (by decide)
  have h2 : cr_runtime_create
      { embedding_dim := 1, max_memory_slots := 1, initial_plasticity := 1 } = some rtDemo := rfl
  rw [h2] at hrt
  have hrt2 : rtDemo = rt := Option.some.inj hrt
  rw [← hrt2] at hp hsc
  exact ⟨hp, hsc⟩

/-! ### Claim C2 (code bug) -/

/-- Claim C2 failing input: cr_state_load validates magic, version, dim
and max_slots but never slot_count, so loading badFile into a matching
store returns success and leaves slot_count = -1, violating
0 ≤ slot_count ≤ max_slots. -/
theorem crC2_load_accepts_negative_slot_count :
    Option.map (fun s => s.slot_count) (cr_state_load stDemo0 badFile) = some (-1) ∧
    ¬(0 ≤ (-1 : Int)) := by
  exact ⟨rfl, by decide⟩

/-! ### Claim C9 (corrected) -/

/-- Claim C9 counterexample: after one successful update with delta_t = 1
the demo store's age is 1, and the reset operation sets age back to 0 —
so age does decrease across a reset, refuting the clause that age never
decreases across any operation. -/
theorem crC9_counterexample :
    Option.map (fun s => s.age) (cr_state_update stDemo0 [1] 1 1) = some 1 ∧
    Option.map (fun s => (cr_state_reset s).age) (cr_state_update stDemo0 [1] 1 1) = some 0 ∧
    (0 : ℝ) < 1 := by
  have h := update_empty stDemo0 [1] 1 1 rfl (by norm_num) rfl (by decide)
  rw [h]
  refine ⟨?_, ?_, by norm_num⟩
  · show some ((finishUpdate stDemo0 _ _ _ _ false stDemo0.plasticity 1).age) = some (1:ℝ)
    rw [finishUpdate_age]
    simp only [Option.some.injEq]
    norm_num [show stDemo0.age = 0 from rfl]
  · rfl

/-- Claim C9 (amended): every successful update (which requires strictly
positive delta_t) strictly increases age; age never decreases across
update and query operations — but reset reinitializes age to 0 and load
overwrites it with the stored value, so those two operations are
excepted. -/
theorem crC9_age_monotonic {st : cr_state_t} {e : List ℝ} {dim : Int} {dt : ℝ}
    {s2 : cr_state_t} (h : cr_state_update st e dim dt = some s2) :
    st.age < s2.age := by
  obtain ⟨-, hdt, hcase⟩ := update_success_shape h
  rcases hcase with ⟨b, -, -, hs2⟩ | ⟨-, -, hs2⟩ | ⟨-, -, hs2⟩ <;>
    (subst hs2; rw [finishUpdate_age]; linarith)

theorem crC9_age_monotonic_witness :
    stDemo0.age <
      (finishUpdate stDemo0
        (stDemo0.slots.set stDemo0.slot_count.toNat
          { vector := copyVec [1] (1:Int).toNat, weight := 1 })
        (stDemo0.slot_count + 1) stDemo0.last_reinforcement_age
        stDemo0.total_reinforcements false stDemo0.plasticity 1).age :=
  crC9_age_monotonic (update_empty stDemo0 [1] 1 1 rfl (by norm_num) rfl (by decide))

/-! ### Claim C8 -/

/-- Claim C8: a query on a store in which no slot is occupied, or in
which no occupied slot achieves cosine similarity strictly greater than
0 with the query vector, succeeds with a Hint containing no vector,
dim = 0 and confidence 0.0. -/
theorem crC8_no_match_hint (st : cr_state_t) (q : List ℝ) (dim : Int)
    (h1 : dim = st.rt.dim)
    (h : ∀ i < st.slot_count.toNat,
      cr_cosine_similarity q (st.slots.getD i default).vector dim.toNat ≤ 0) :
    cr_state_query st q dim = some { vector := none, dim := 0, confidence := 0 } := by
  unfold cr_state_query
  rw [if_neg (by simp [h1])]
  dsimp only
  rw [scanBest_none _ _ _ _ h]

theorem crC8_no_match_hint_witness :
    cr_state_query stDemo0 [1] 1 = some { vector := none, dim := 0, confidence := 0 } :=
  crC8_no_match_hint stDemo0 [1] 1 rfl (by intro i hi; simp [stDemo0, cr_state_create] at hi)

/-! ### Claim C7 -/

/-- Claim C7: for every update on a store whose slot_count equals
max_slots and whose best scanned similarity does not exceed the 0.85
threshold, the update succeeds, no slot or slot_count is mutated, and
the bookkeeping still proceeds: plasticity is multiplied by the
recovery rate and clamped to the mercy bounds, age advances by delta_t,
total_updates is incremented and total_reinforcements is unchanged. -/
theorem crC7_full_store_discard (st : cr_state_t) (e : List ℝ) (dim : Int) (dt : ℝ)
    (h1 : dim = st.rt.dim) (h2 : 0 < dt)
    (hfull : st.slot_count = st.rt.max_slots)
    (hsim : (scanBest e dim.toNat st.slots st.slot_count.toNat).2 ≤ CR_SIM_THRESHOLD) :
    (cr_state_update st e dim dt).isSome = true ∧
    ∀ s2, cr_state_update st e dim dt = some s2 →
      s2.slots = st.slots ∧
      s2.slot_count = st.slot_count ∧
      s2.plasticity =
        (let p1 := st.plasticity * CR_RECOVERY_RATE
         let p2 := if p1 < CR_EPSILON then CR_EPSILON else p1
         if 1 < p2 then 1 else p2) ∧
      CR_EPSILON ≤ s2.plasticity ∧ s2.plasticity ≤ 1 ∧
      s2.age = st.age + dt ∧
      s2.total_updates = st.total_updates + 1 ∧
      s2.total_reinforcements = st.total_reinforcements := by
  have hc1 : ¬((scanBest e dim.toNat st.slots st.slot_count.toNat).1.isSome = true ∧
      CR_SIM_THRESHOLD < (scanBest e dim.toNat st.slots st.slot_count.toNat).2) := by
    rintro ⟨-, hgt⟩
    exact absurd hgt (not_lt.mpr hsim)
  have hc2 : ¬(st.slot_count < st.rt.max_slots) := by
    rw [hfull]
    exact lt_irrefl _
  have hupd : cr_state_update st e dim dt =
      some (finishUpdate st st.slots st.slot_count st.last_reinforcement_age
        st.total_reinforcements false st.plasticity dt) := by
    unfold cr_state_update
    rw [if_neg (by simp [h1]), if_neg (not_le.mpr h2)]
    dsimp only
    rw [if_neg hc1, if_neg hc2]
  refine ⟨by rw [hupd]; rfl, ?_⟩
  intro s2 hs2
  rw [hupd] at hs2
  injection hs2 with hs2
  subst hs2
  refine ⟨rfl, rfl, ?_, (finishUpdate_plasticity_bounds _ _ _ _ _ _ _ _).1,
    (finishUpdate_plasticity_bounds _ _ _ _ _ _ _ _).2, rfl, rfl, rfl⟩
  rw [finishUpdate_plasticity]
  rfl

theorem cosine_e2_e1 : cr_cosine_similarity [0, 1] [1, 0] 2 = 0 := by
  unfold cr_cosine_similarity
  have hn1 : normAcc [(0:ℝ), 1] 2 = 1 := by
    norm_num [normAcc, Finset.sum_range_succ]
  have hn2 : normAcc [(1:ℝ), 0] 2 = 1 := by
    norm_num [normAcc, Finset.sum_range_succ]
  have hd : dotAcc [(0:ℝ), 1] [1, 0] 2 = 0 := by
    norm_num [dotAcc, Finset.sum_range_succ]
  rw [hn1, hn2, hd]
  norm_num

theorem scan_stFull : scanBest [0, 1] 2 stFull.slots 1 = (none, 0) := by
  rw [show (1:ℕ) = 0 + 1 from rfl, scanBest_succ, scanBest_zero]
  have hv : (stFull.slots.getD 0 default).vector = [1, 0] := rfl
  rw [hv, cosine_e2_e1]
  norm_num

theorem crC7_full_store_discard_witness :
    (cr_state_update stFull [0, 1] 2 1).isSome = true ∧
    Option.map (fun s => s.slot_count) (cr_state_update stFull [0, 1] 2 1) = some 1 := by
  obtain ⟨hsome, hall⟩ := crC7_full_store_discard stFull [0, 1] 2 1 rfl (by norm_num) rfl
    (by show (scanBest [0, 1] 2 stFull.slots 1).2 ≤ CR_SIM_THRESHOLD
        rw [scan_stFull]
        norm_num [CR_SIM_THRESHOLD])
  refine ⟨hsome, ?_⟩
  obtain ⟨s2, hs2⟩ := Option.isSome_iff_exists.mp hsome
  rw [hs2]
  obtain ⟨-, hsc, -⟩ := hall s2 hs2
  simp only [Option.map_some']
  rw [hsc]
  rfl

/-! ### Claim C10 -/

theorem getD_replicate_zero (k i : ℕ) : (List.replicate k (0:ℝ)).getD i 0 = 0 := by
  rcases lt_or_le i k with h | h
  · simp [List.getD_eq_getElem?_getD, List.getElem?_replicate, h]
  · simp [List.getD_eq_getElem?_getD, List.getElem?_replicate, Nat.not_lt.mpr h]

theorem copyVec_replicate (dim : ℕ) :
    copyVec (List.replicate dim (0:ℝ)) dim = List.replicate dim 0 := by
  unfold copyVec
  rw [List.eq_replicate_iff]
  refine ⟨by simp, ?_⟩
  intro b hb
  simp only [List.mem_map, List.mem_range] at hb
  obtain ⟨i, -, hbi⟩ := hb
  rw [← hbi, getD_replicate_zero]

/-- Claim C10: a successful update with the all-zero vector of the
configured dimension never reinforces any slot — the cosine similarity
of a zero-norm vector is defined as 0 — so the update either appends a
new slot holding the zero vector (when slot_count < max_slots) or
leaves all slots unchanged (when full), and total_reinforcements is
never incremented. -/
theorem crC10_zero_vector_never_reinforces (st : cr_state_t) (dim : Int) (dt : ℝ)
    (h1 : dim = st.rt.dim) (h2 : 0 < dt) :
    (cr_state_update st (List.replicate dim.toNat 0) dim dt).isSome = true ∧
    ∀ s2, cr_state_update st (List.replicate dim.toNat 0) dim dt = some s2 →
      s2.total_reinforcements = st.total_reinforcements ∧
      (st.slot_count < st.rt.max_slots →
        s2.slots = st.slots.set st.slot_count.toNat
          { vector := List.replicate dim.toNat 0, weight := 1 } ∧
        s2.slot_count = st.slot_count + 1) ∧
      (¬st.slot_count < st.rt.max_slots →
        s2.slots = st.slots ∧ s2.slot_count = st.slot_count) := by
  have hscan : scanBest (List.replicate dim.toNat 0) dim.toNat st.slots
      st.slot_count.toNat = (none, 0) :=
    scanBest_none _ _ _ _ (fun i _ =>
      le_of_eq (cr_cosine_similarity_zero_left _ _ _ (normAcc_replicate_zero _ _)))
  have hupd : cr_state_update st (List.replicate dim.toNat 0) dim dt =
      (if st.slot_count < st.rt.max_slots then
        some (finishUpdate st (st.slots.set st.slot_count.toNat
          { vector := copyVec (List.replicate dim.toNat 0) dim.toNat, weight := 1 })
          (st.slot_count + 1) st.last_reinforcement_age st.total_reinforcements
          false st.plasticity dt)
      else
        some (finishUpdate st st.slots st.slot_count st.last_reinforcement_age
          st.total_reinforcements false st.plasticity dt)) := by
    unfold cr_state_update
    rw [if_neg (by simp [h1]), if_neg (not_le.mpr h2)]
    dsimp only
    rw [hscan, if_neg (by simp)]
  by_cases hc : st.slot_count < st.rt.max_slots
  · rw [hupd, if_pos hc]
    refine ⟨rfl, ?_⟩
    intro s2 hs2
    injection hs2 with hs2
    subst hs2
    refine ⟨rfl, fun _ => ⟨?_, rfl⟩, fun hnc => absurd hc hnc⟩
    rw [finishUpdate_slots, copyVec_replicate]
  · rw [hupd, if_neg hc]
    refine ⟨rfl, ?_⟩
    intro s2 hs2
    injection hs2 with hs2
    subst hs2
    exact ⟨rfl, fun hcc => absurd hcc hc, fun _ => ⟨rfl, rfl⟩⟩

theorem crC10_zero_vector_never_reinforces_witness :
    Option.map (fun s => s.total_reinforcements)
      (cr_state_update stDemo0 (List.replicate (1:Int).toNat 0) 1 1) = some 0 := by
  obtain ⟨hsome, hall⟩ := crC10_zero_vector_never_reinforces stDemo0 1 1 rfl (by norm_num)
  obtain ⟨s2, hs2⟩ := Option.isSome_iff_exists.mp hsome
  rw [hs2]
  obtain ⟨htr, -, -⟩ := hall s2 hs2
  simp only [Option.map_some']
  rw [htr]
  rfl

/-! ### Claim C6 -/

/-- Claim C6: for every successful query on a reachable state that
matches a slot, the returned confidence equals
best_sim * (1 - plasticity) * weight / (weight + 1), and every returned
confidence satisfies 0 ≤ confidence < 1. -/
theorem crC6_confidence (cfg : cr_config_t) (rt : cr_runtime_t) (st : cr_state_t)
    (q : List ℝ) (dim : Int) (hint : cr_hint_t)
    (hrt : cr_runtime_create cfg = some rt) (hreach : Reachable rt st)
    (hq : cr_state_query st q dim = some hint) :
    0 ≤ hint.confidence ∧ hint.confidence < 1 ∧
    ∀ b, (scanBest q dim.toNat st.slots st.slot_count.toNat).1 = some b →
      hint.confidence = (scanBest q dim.toNat st.slots st.slot_count.toNat).2 *
        (1 - st.plasticity) *
        ((st.slots.getD b default).weight / ((st.slots.getD b default).weight + 1)) := by
  obtain ⟨-, -, -, -, hpl, hpu, hocc⟩ :=
    reachable_wf (le_of_lt (runtime_create_pos hrt).2) hreach
  unfold cr_state_query at hq
  by_cases h1 : dim ≠ st.rt.dim
  · rw [if_pos h1] at hq
    exact absurd hq (by simp)
  · rw [if_neg h1] at hq
    dsimp only at hq
    rcases hb : (scanBest q dim.toNat st.slots st.slot_count.toNat).1 with _ | b
    · rw [hb] at hq
      injection hq with hq
      subst hq
      refine ⟨le_refl 0, by norm_num, ?_⟩
      intro b hbb
      exact absurd hbb (by simp)
    · rw [hb] at hq
      injection hq with hq
      subst hq
      obtain ⟨hbn, hbsim, hbpos⟩ := scanBest_some _ _ _ _ _ hb
      obtain ⟨hw, -⟩ := hocc b hbn
      have hsim1 : (scanBest q dim.toNat st.slots st.slot_count.toNat).2 ≤ 1 := by
        rw [hbsim]
        exact cr_cosine_similarity_le_one _ _ _
      have hwpos : (0:ℝ) < (st.slots.getD b default).weight + 1 := by linarith
      have hf0 : 0 ≤ (st.slots.getD b default).weight /
          ((st.slots.getD b default).weight + 1) :=
        div_nonneg (by linarith) (le_of_lt hwpos)
      have hf1 : (st.slots.getD b default).weight /
          ((st.slots.getD b default).weight + 1) < 1 :=
        (div_lt_one hwpos).mpr (by linarith)
      have hst0 : 0 ≤ 1 - st.plasticity := by linarith
      have hppos : 0 < st.plasticity := by
        have hε : (0:ℝ) < CR_EPSILON := by norm_num [CR_EPSILON]
        linarith
      refine ⟨?_, ?_, ?_⟩
      · exact mul_nonneg (mul_nonneg (le_of_lt hbpos) hst0) hf0
      · have hs1 : (scanBest q dim.toNat st.slots st.slot_count.toNat).2 *
            (1 - st.plasticity) ≤ 1 - st.plasticity :=
          mul_le_of_le_one_left hst0 hsim1
        have hs2f : (scanBest q dim.toNat st.slots st.slot_count.toNat).2 *
            (1 - st.plasticity) *
            ((st.slots.getD b default).weight / ((st.slots.getD b default).weight + 1)) ≤
            (1 - st.plasticity) *
            ((st.slots.getD b default).weight / ((st.slots.getD b default).weight + 1)) :=
          mul_le_mul_of_nonneg_right hs1 hf0
        have hs3 : (1 - st.plasticity) *
            ((st.slots.getD b default).weight / ((st.slots.getD b default).weight + 1)) ≤
            (1 - st.plasticity) * 1 :=
          mul_le_mul_of_nonneg_left (le_of_lt hf1) hst0
        show (scanBest q dim.toNat st.slots st.slot_count.toNat).2 *
            (1 - st.plasticity) *
            ((st.slots.getD b default).weight / ((st.slots.getD b default).weight + 1)) < 1
        calc (scanBest q dim.toNat st.slots st.slot_count.toNat).2 *
            (1 - st.plasticity) *
            ((st.slots.getD b default).weight / ((st.slots.getD b default).weight + 1))
            ≤ (1 - st.plasticity) *
              ((st.slots.getD b default).weight / ((st.slots.getD b default).weight + 1)) :=
              hs2f
          _ ≤ (1 - st.plasticity) * 1 := hs3
          _ = 1 - st.plasticity := mul_one _
          _ < 1 := by linarith
      · intro b2 hb2
        injection hb2 with hb2
        subst hb2
        rfl

/-- Query of the unit vector on the fresh demo store: no slot is
occupied, so the scan finds nothing and the empty hint is returned. -/
theorem query_stDemo0_eval :
    cr_state_query stDemo0 [1] 1 = some { vector := none, dim := 0, confidence := 0 } := rfl

theorem crC6_confidence_witness :
    0 ≤ ({ vector := none, dim := 0, confidence := 0 } : cr_hint_t).confidence ∧
    ({ vector := none, dim := 0, confidence := 0 } : cr_hint_t).confidence < 1 :=
  ⟨(crC6_confidence { embedding_dim := 1, max_memory_slots := 1, initial_plasticity := 1 }
      rtDemo stDemo0 [1] 1 _ rfl Reachable.create query_stDemo0_eval).1,
   (crC6_confidence { embedding_dim := 1, max_memory_slots := 1, initial_plasticity := 1 }
      rtDemo stDemo0 [1] 1 _ rfl Reachable.create query_stDemo0_eval).2.1⟩

/-! ### Claim C4: persistence round-trip -/

theorem readFloats_map_f (v : List ℝ) (rest : List FileWord) :
    readFloats v.length (v.map FileWord.f ++ rest) = some (v, rest) := by
  induction v with
  | nil => rfl
  | cons x xs ih =>
    show readFloats (xs.length + 1) (FileWord.f x :: (xs.map FileWord.f ++ rest)) = _
    unfold readFloats
    rw [ih]

theorem encVec_eq_map (v : List ℝ) (dim : ℕ) :
    encVec v dim = ((List.range dim).map (fun j => v.getD j 0)).map FileWord.f := by
  unfold encVec
  rw [List.map_map]
  rfl

theorem readFloats_encVec (v : List ℝ) (dim : ℕ) (rest : List FileWord) :
    readFloats dim (encVec v dim ++ rest) =
      some ((List.range dim).map (fun j => v.getD j 0), rest) := by
  rw [encVec_eq_map]
  have h := readFloats_map_f ((List.range dim).map (fun j => v.getD j 0)) rest
  simpa using h

/-- Reading back exactly what the slot-writing loop wrote succeeds and
copies the encoded slots into the destination array. -/
theorem readSlotsAux_encSlotsAux (src : List cr_slot_t) (dim : ℕ) :
    ∀ (n i : ℕ) (dst : List cr_slot_t),
      readSlotsAux dim (encSlotsAux src dim i n) dst i n =
        some (copySlots src dim dst i n) := by
  intro n
  induction n with
  | zero => intro i dst; rfl
  | succ n ih =>
    intro i dst
    show readSlotsAux dim (encVec (src.getD i default).vector dim ++
      (FileWord.f (src.getD i default).weight :: encSlotsAux src dim (i+1) n)) dst i (n+1) = _
    unfold readSlotsAux
    rw [readFloats_encVec]
    exact ih (i+1) _

theorem copySlots_getD_lt (src : List cr_slot_t) (dim : ℕ) :
    ∀ (n i j : ℕ) (dst : List cr_slot_t), j < i →
      (copySlots src dim dst i n).getD j default = dst.getD j default := by
  intro n
  induction n with
  | zero => intro i j dst _; rfl
  | succ n ih =>
    intro i j dst hj
    show (copySlots src dim (dst.set i _) (i+1) n).getD j default = _
    rw [ih (i+1) j _ (by omega)]
    exact getD_set_ne _ _ _ _ (by omega)

theorem copySlots_getD_ge (src : List cr_slot_t) (dim : ℕ) :
    ∀ (n i j : ℕ) (dst : List cr_slot_t), i ≤ j → j < i + n → j < dst.length →
      (copySlots src dim dst i n).getD j default =
        { vector := (List.range dim).map (fun k => (src.getD j default).vector.getD k 0)
          weight := (src.getD j default).weight } := by
  intro n
  induction n with
  | zero => intro i j dst h1 h2 _; exact absurd h2 (by omega)
  | succ n ih =>
    intro i j dst h1 h2 hlen
    show (copySlots src dim (dst.set i _) (i+1) n).getD j default = _
    by_cases hj : j = i
    · subst hj
      rw [copySlots_getD_lt src dim n (j+1) j _ (by omega)]
      exact getD_set_self _ _ _ hlen
    · exact ih (i+1) j _ (by omega) (by omega) (by simpa using hlen)

theorem mapRange_getD_eq_self (v : List ℝ) (dim : ℕ) (h : v.length = dim) :
    (List.range dim).map (fun j => v.getD j 0) = v := by
  subst h
  apply List.ext_getElem
  · simp
  · intro i h1 h2
    simp [List.getD_eq_getElem?_getD, List.getElem?_eq_getElem h2]

/-- Queries agree on two stores that share configuration, slot_count,
plasticity, and the occupied slots. -/
theorem query_congr (stA stB : cr_state_t)
    (hrt : stA.rt = stB.rt) (hsc : stA.slot_count = stB.slot_count)
    (hp : stA.plasticity = stB.plasticity)
    (hslots : ∀ i < stB.slot_count.toNat,
      stA.slots.getD i default = stB.slots.getD i default) :
    ∀ q dim, cr_state_query stA q dim = cr_state_query stB q dim := by
  intro q dim
  unfold cr_state_query
  by_cases hdim : dim ≠ stB.rt.dim
  · rw [if_pos (by rw [hrt]; exact hdim), if_pos hdim]
  · rw [if_neg (by rw [hrt]; exact hdim), if_neg hdim]
    dsimp only
    have hscan : scanBest q dim.toNat stA.slots stA.slot_count.toNat =
        scanBest q dim.toNat stB.slots stB.slot_count.toNat := by
      rw [hsc]
      exact scanBest_congr q dim.toNat stA.slots stB.slots _ hslots
    rw [hscan]
    rcases hb : (scanBest q dim.toNat stB.slots stB.slot_count.toNat).1 with _ | b
    · rfl
    · obtain ⟨hbn, -, -⟩ := scanBest_some _ _ _ _ _ hb
      dsimp only
      rw [hslots b hbn, hp]

/-- Claim C4: for every well-formed Memory Store, save followed by a
successful load into a store of matching configuration reproduces
identical scalar state (slot_count, plasticity, age, plasticity_prev,
velocity, last_reinforcement_age, total_updates, total_reinforcements)
and identical query results — in particular identical confidence — for
any query vector. -/
theorem crC4_save_load_roundtrip (st st2 : cr_state_t)
    (hwf : crWF st) (hrt : st2.rt = st.rt)
    (hlen2 : st2.slots.length = st2.rt.max_slots.toNat) :
    ∃ s3, cr_state_load st2 (cr_state_save st) = some s3 ∧
      s3.slot_count = st.slot_count ∧
      s3.plasticity = st.plasticity ∧
      s3.age = st.age ∧
      s3.plasticity_prev = st.plasticity_prev ∧
      s3.velocity = st.velocity ∧
      s3.last_reinforcement_age = st.last_reinforcement_age ∧
      s3.total_updates = st.total_updates ∧
      s3.total_reinforcements = st.total_reinforcements ∧
      ∀ q dim, cr_state_query s3 q dim = cr_state_query st q dim := by
  obtain ⟨hms, hlen, hsc0, hscm, hpl, hpu, hocc⟩ := hwf
  have hload : cr_state_load st2 (cr_state_save st) =
      some { st2 with
        slot_count := st.slot_count
        plasticity := st.plasticity
        age := st.age
        plasticity_prev := st.plasticity_prev
        velocity := st.velocity
        last_reinforcement_age := st.last_reinforcement_age
        total_updates := st.total_updates
        total_reinforcements := st.total_reinforcements
        slots := copySlots st.slots st.rt.dim.toNat
          (st2.slots.map (fun s => { s with weight := 0 })) 0 st.slot_count.toNat } := by
    unfold cr_state_save cr_state_load
    dsimp only
    rw [if_neg (by simp), if_neg (by simp), if_neg (by simp [hrt])]
    rw [readSlotsAux_encSlotsAux]
  refine ⟨_, hload, rfl, rfl, rfl, rfl, rfl, rfl, rfl, rfl, ?_⟩
  apply query_congr
  · exact hrt
  · rfl
  · rfl
  · intro i hi
    have hclen : (st2.slots.map (fun s => { s with weight := (0:ℝ) })).length =
        st.rt.max_slots.toNat := by
      rw [List.length_map, hlen2, hrt]
    have hilen : i < (st2.slots.map (fun s => { s with weight := (0:ℝ) })).length := by
      rw [hclen]
      omega
    show (copySlots st.slots st.rt.dim.toNat
        (st2.slots.map (fun s => { s with weight := 0 })) 0 st.slot_count.toNat).getD i default =
      st.slots.getD i default
    rw [copySlots_getD_ge st.slots st.rt.dim.toNat st.slot_count.toNat 0 i _
      (Nat.zero_le i) (by omega) hilen]
    rw [mapRange_getD_eq_self _ _ (hocc i hi).2]

theorem crC4_save_load_roundtrip_witness :
    (cr_state_load stDemo0 (cr_state_save stDemo0)).isSome = true := by
  obtain ⟨s3, hload, -⟩ := crC4_save_load_roundtrip stDemo0 stDemo0
    (crWF_create rtDemo (by decide)) rfl (by simp [stDemo0, cr_state_create, rtDemo])
  rw [hload]
  rfl

end MIND
